import Mathlib

/-!
Verification development for the ngrx-form repository.

The repository's core is a pure form reducer over a normalized
form/field data model (root state mapping form names to form states,
each form state mapping field names to field states), plus an action
factory producing the typed actions the reducer consumes, and a field
directive binding a single form element to the store.

JS objects are embedded as association lists with string keys; JS
`undefined` is embedded as `Option.none` (for error / initialValues)
or as the `Value.undef` constructor (for field values, which are
opaque to the reducer).
-/

namespace NgrxForm

/-- Field values are opaque to the reducer (string, boolean, etc.).
This inductive covers the value shapes appearing in the repository's
tests plus JS `undefined`. -/
inductive Value where
  | undef : Value
  | str : String → Value
  | bool : Bool → Value
  deriving DecidableEq, Repr

/-- Modelled from the spec: the per-field record tracking value, focus,
touch, error, and reference count (`IFormFieldState` of the missing
types module; only the reducer tests for it are under src/). `error`
is `none` for JS `undefined`. -/
structure FieldState where
  value : Value
  focus : Bool
  touched : Bool
  error : Option String
  count : Nat
  deriving DecidableEq, Repr

/-- Mapping from field name to a value, as a JS object (assoc list). -/
abbrev Values := List (String × Value)

/-- Mapping from field name to an error message, as a JS object. -/
abbrev FieldErrors := List (String × String)

/-- Modelled from the spec: the named, per-form record tracking all of
a form's registered fields, aggregate validity, and initial values
(`IFormState` of the missing types module). `initialValues = none`
models the key being absent. -/
structure FormState where
  name : String
  fields : List (String × FieldState)
  invalid : Bool
  initialValues : Option Values
  deriving DecidableEq, Repr

/-- Root forms state: mapping from form name to form state. -/
abbrev RootState := List (String × FormState)

/-- Lookup of a key in a JS-object-as-assoc-list (first binding wins). -/
def alookup {β : Type} (k : String) : List (String × β) → Option β
  | [] => none
  | (k', v) :: t => if k' = k then some v else alookup k t

/-- JS object property assignment: replace the binding if the key is
present, otherwise append a new binding. -/
def aset {β : Type} (k : String) (v : β) : List (String × β) → List (String × β)
  | [] => [(k, v)]
  | (k', v') :: t => if k' = k then (k, v) :: t else (k', v') :: aset k v t

/-- JS `delete obj[k]`: remove the binding(s) for `k`. -/
def aremove {β : Type} (k : String) (l : List (String × β)) : List (String × β) :=
  l.filter (fun p => p.1 != k)

/-- Key-preserving map over the values of a JS object. -/
def mapVals {β : Type} (g : String → β → β) (l : List (String × β)) : List (String × β) :=
  l.map (fun p => (p.1, g p.1 p.2))

/-- Modelled from the spec: the action values produced by the action
factory (the actions module is missing from src/; only its consumers
are present). Each enumerated action carries its `formName` payload;
`unknownAction t` stands for any action whose `type` string `t` is not
one of the enumerated form action types. -/
inductive Action where
  | initForm (formName : String)
  | destroyForm (formName : String)
  | registerField (formName fieldName : String)
  | unregisterField (formName fieldName : String)
  | setInitialValues (formName : String) (values : Values)
  | updateFieldErrors (formName : String) (errors : FieldErrors)
  | focusField (formName fieldName : String)
  | blurField (formName fieldName : String)
  | changeField (formName fieldName : String) (value : Value)
  | resetForm (formName : String)
  | unknownAction (t : String)
  deriving DecidableEq, Repr

/-- The `formName` payload of an action, `none` for foreign actions. -/
def actionFormName : Action → Option String
  | Action.initForm n => some n
  | Action.destroyForm n => some n
  | Action.registerField n _ => some n
  | Action.unregisterField n _ => some n
  | Action.setInitialValues n _ => some n
  | Action.updateFieldErrors n _ => some n
  | Action.focusField n _ => some n
  | Action.blurField n _ => some n
  | Action.changeField n _ _ => some n
  | Action.resetForm n => some n
  | Action.unknownAction _ => none

/-- JS truthiness of an error entry: a present, non-empty string. -/
def errTruthy : Option String → Bool
  | none => false
  | some s => s != ""

/-- The initial attributes of a freshly registered field. -/
def initialField : FieldState :=
  { value := Value.undef, focus := false, touched := false, error := none, count := 0 }

/-- Point update of one field of one form; the whole state is returned
unchanged when the form or the field does not exist. -/
def updateField (state : RootState) (n f : String) (upd : FieldState → FieldState) : RootState :=
  match alookup n state with
  | none => state
  | some form =>
    match alookup f form.fields with
    | none => state
    | some fs => aset n { form with fields := aset f (upd fs) form.fields } state

/-- Modelled from the spec: the form reducer (the reducer module is
missing from src/; only its test suite is present). Pure function from
a root state and an action to the next root state, following the
per-action transition rules of the spec:
initForm inserts an empty shell unless the form already exists;
destroyForm removes the entry; registerField inserts with count 1 or
increments count; unregisterField decrements count and deletes the
entry when it reaches 0; setInitialValues stores the values and
applies them to currently existing fields; updateFieldErrors rewrites
every field's error from the errors map and recomputes `invalid`;
focus/blur/change update one field; resetForm restores every field to
its initial value and clears focus/touched/error; actions referencing
a nonexistent form or field, and unknown action types, leave the
state unchanged. -/
def formReducer (state : RootState) (action : Action) : RootState :=
  match action with
  | Action.initForm n =>
    match alookup n state with
    | some _ => state
    | none =>
      aset n { name := n, fields := [], invalid := false, initialValues := none } state
  | Action.destroyForm n => aremove n state
  | Action.registerField n f =>
    match alookup n state with
    | none => state
    | some form =>
      match alookup f form.fields with
      | none =>
        aset n { form with fields := aset f { initialField with count := 1 } form.fields } state
      | some fs =>
        aset n { form with fields := aset f { fs with count := fs.count + 1 } form.fields } state
  | Action.unregisterField n f =>
    match alookup n state with
    | none => state
    | some form =>
      match alookup f form.fields with
      | none => state
      | some fs =>
        if fs.count - 1 = 0 then
          aset n { form with fields := aremove f form.fields } state
        else
          aset n { form with fields := aset f { fs with count := fs.count - 1 } form.fields } state
  | Action.setInitialValues n values =>
    match alookup n state with
    | none => state
    | some form =>
      aset n { form with
        initialValues := some values,
        fields := mapVals (fun f fs =>
          match alookup f values with
          | some v => { fs with value := v }
          | none => fs) form.fields } state
  | Action.updateFieldErrors n errors =>
    match alookup n state with
    | none => state
    | some form =>
      let newFields := mapVals (fun f fs => { fs with error := alookup f errors }) form.fields
      aset n { form with
        fields := newFields,
        invalid := newFields.any (fun p => errTruthy p.2.error) } state
  | Action.focusField n f =>
    updateField state n f (fun fs => { fs with focus := true })
  | Action.blurField n f =>
    updateField state n f (fun fs => { fs with focus := false, touched := true })
  | Action.changeField n f v =>
    updateField state n f (fun fs => { fs with value := v })
  | Action.resetForm n =>
    match alookup n state with
    | none => state
    | some form =>
      aset n { form with
        fields := mapVals (fun f fs =>
          { fs with
            value := (alookup f (form.initialValues.getD [])).getD Value.undef,
            focus := false, touched := false, error := none }) form.fields,
        invalid := false } state
  | Action.unknownAction _ => state

/-- Left-to-right reduction of a sequence of actions. -/
def reduceAll (s : RootState) (as : List Action) : RootState :=
  as.foldl formReducer s

/-- A form state satisfies the error/invalid invariant when `invalid`
equals the presence of a truthy error on at least one field. -/
def formInvariantB (form : FormState) : Bool :=
  form.invalid == form.fields.any (fun p => errTruthy p.2.error)

/-- Every form entry of the root state satisfies `formInvariantB`. -/
def allFormsInvariant (s : RootState) : Bool :=
  s.all (fun p => formInvariantB p.2)

/-- Apply a sequence of register (`true`) / unregister (`false`)
actions for one field of one form, left to right. -/
def applyRegOps (s : RootState) (n f : String) (ops : List Bool) : RootState :=
  ops.foldl (fun st b =>
    formReducer st (if b then Action.registerField n f else Action.unregisterField n f)) s

/-- Number of register actions in a register/unregister sequence. -/
def regCount (ops : List Bool) : Nat := (ops.filter (fun b => b)).length

/-- Number of unregister actions in a register/unregister sequence. -/
def unregCount (ops : List Bool) : Nat := (ops.filter (fun b => !b)).length

/-- Dispatch-relevant state of the `[ngrxField]` directive
(src/src/directives/field-directive.ts): the names identifying the
bound field, the two optional value transformers, and `fieldValue`,
the last value recorded for the field. -/
structure FieldDirective where
  formName : String
  fieldName : String
  stateValueTransformer : Option (Value → Value)
  elementValueTransformer : Option (Value → Value)
  fieldValue : Value

/-- From src/src/directives/field-directive.ts, `onChange`: dispatch a
changeField action (with the state-value-transformed value) only when
the new element value differs from the recorded `fieldValue`;
otherwise dispatch nothing. -/
def FieldDirective.onChange (d : FieldDirective) (newValue : Value) : Option Action :=
  if newValue ≠ d.fieldValue then
    some (Action.changeField d.formName d.fieldName
      (match d.stateValueTransformer with
       | some t => t newValue
       | none => newValue))
  else none

/-- From src/src/directives/field-directive.ts, `onStateValueUpdate`:
on every state value push, record the (possibly element-value-
transformed) value as `fieldValue`; forwarding to the field control is
outside this model. -/
def FieldDirective.onStateValueUpdate (d : FieldDirective) (value : Value) : FieldDirective :=
  { d with fieldValue :=
      match d.elementValueTransformer with
      | some t => t value
      | none => value }

/-- A root state holding one freshly initialised form named "test". -/
def emptyTestState : RootState :=
  [("test", { name := "test", fields := [], invalid := false, initialValues := none })]

/-- A sample form with one registered error-free field. -/
def sampleForm : FormState :=
  { name := "test",
    fields := [("age",
      { value := Value.undef, focus := false, touched := false, error := none, count := 1 })],
    invalid := false, initialValues := none }

/-- A root state holding `sampleForm`. -/
def sampleState : RootState := [("test", sampleForm)]

/-- A sample form with two fields, one carrying a stale error. -/
def errSampleForm : FormState :=
  { name := "test",
    fields :=
      [("name",
        { value := Value.str "John", focus := false, touched := false,
          error := some "old", count := 1 }),
       ("age",
        { value := Value.undef, focus := false, touched := false, error := none, count := 1 })],
    invalid := true, initialValues := none }

/-- A root state holding `errSampleForm`. -/
def errSampleState : RootState := [("test", errSampleForm)]

/-- A sample form with initial values and dirty fields, mirroring the
RESET_FORM test case of src/src/__test__/reducer.spec.ts. -/
def resetSampleForm : FormState :=
  { name := "test",
    fields :=
      [("age",
        { value := Value.str "200", focus := true, touched := true,
          error := some "some error", count := 1 }),
       ("name",
        { value := Value.str "some name", focus := false, touched := true,
          error := some "some error", count := 1 })],
    invalid := true,
    initialValues := some [("name", Value.str "INITIAL_NAME"), ("age", Value.str "99")] }

/-- A root state holding `resetSampleForm`. -/
def resetSampleState : RootState := [("test", resetSampleForm)]

/-- A sample field directive with no transformers and no recorded value. -/
def sampleDirective : FieldDirective :=
  { formName := "test", fieldName := "name",
    stateValueTransformer := none, elementValueTransformer := none,
    fieldValue := Value.undef }

/-! ### Lemmas about the JS-object operations -/

theorem alookup_aset {β : Type} (k' k : String) (v : β) (l : List (String × β)) :
    alookup k' (aset k v l) = if k' = k then some v else alookup k' l := by
  induction l with
  | nil =>
    by_cases h : k' = k
    · subst h; simp [aset, alookup]
    · have h2 : ¬ k = k' := by
        intro hh
        exact h hh.symm
      simp [aset, alookup, h, h2]
  | cons p t ih =>
    obtain ⟨a, b⟩ := p
    by_cases hak : a = k
    · subst hak
      by_cases h : k' = a
      · subst h; simp [aset, alookup]
      · have h2 : ¬ a = k' := by
          intro hh
          exact h hh.symm
        simp [aset, alookup, h, h2]
    · by_cases h : a = k'
      · subst h
        simp [aset, alookup, hak, ih]
      · simp [aset, alookup, hak, h, ih]

theorem alookup_aremove {β : Type} (k' k : String) (l : List (String × β)) :
    alookup k' (aremove k l) = if k' = k then none else alookup k' l := by
  induction l with
  | nil => simp [aremove, alookup]
  | cons p t ih =>
    obtain ⟨a, b⟩ := p
    by_cases hak : a = k
    · subst hak
      by_cases h : k' = a
      · subst h
        simp [aremove, List.filter_cons, alookup] at ih ⊢
        exact ih
      · have h2 : ¬ a = k' := by
          intro hh
          exact h hh.symm
        simp [aremove, List.filter_cons, alookup, h, h2] at ih ⊢
        exact ih
    · have hbne : (a != k) = true := bne_iff_ne.mpr hak
      by_cases h : a = k'
      · subst h
        simp [aremove, List.filter_cons, alookup, hbne, hak]
      · simp [aremove, List.filter_cons, alookup, hbne, h] at ih ⊢
        exact ih

theorem aremove_of_lookup_none {β : Type} (k : String) (l : List (String × β))
    (h : alookup k l = none) : aremove k l = l := by
  induction l with
  | nil => simp [aremove]
  | cons p t ih =>
    obtain ⟨a, b⟩ := p
    simp only [alookup] at h
    by_cases hak : a = k
    · simp [hak] at h
    · rw [if_neg hak] at h
      have hbne : (a != k) = true := bne_iff_ne.mpr hak
      simp only [aremove, List.filter_cons, hbne, if_pos]
      have := ih h
      simp only [aremove] at this
      rw [this]

theorem alookup_mapVals {β : Type} (g : String → β → β) (k : String) (l : List (String × β)) :
    alookup k (mapVals g l) = (alookup k l).map (g k) := by
  induction l with
  | nil => simp [mapVals, alookup]
  | cons p t ih =>
    obtain ⟨a, b⟩ := p
    simp only [mapVals, List.map, alookup] at ih ⊢
    by_cases h : a = k
    · subst h; simp
    · simp [h, ih]

theorem all_aset {β : Type} (q : String × β → Bool) (k : String) (v : β)
    (l : List (String × β)) (hl : l.all q = true) (hv : q (k, v) = true) :
    (aset k v l).all q = true := by
  induction l with
  | nil => simp [aset, hv]
  | cons p t ih =>
    obtain ⟨a, b⟩ := p
    simp only [List.all_cons, Bool.and_eq_true] at hl
    by_cases h : a = k
    · simp [aset, h, hv, hl.2]
    · simp [aset, h, hl.1, ih hl.2]

theorem all_aremove {β : Type} (q : String × β → Bool) (k : String)
    (l : List (String × β)) (hl : l.all q = true) :
    (aremove k l).all q = true := by
  induction l with
  | nil => simp [aremove]
  | cons p t ih =>
    obtain ⟨a, b⟩ := p
    simp only [List.all_cons, Bool.and_eq_true] at hl
    simp only [aremove, List.filter_cons] at ih ⊢
    by_cases h : a = k
    · rw [if_neg (by simp [h])]
      exact ih hl.2
    · rw [if_pos (bne_iff_ne.mpr h)]
      simp only [List.all_cons, Bool.and_eq_true]
      exact ⟨hl.1, ih hl.2⟩

theorem all_alookup {β : Type} (q : String × β → Bool) (k : String) (v : β)
    (l : List (String × β)) (hl : l.all q = true) (h : alookup k l = some v) :
    q (k, v) = true := by
  induction l with
  | nil => simp [alookup] at h
  | cons p t ih =>
    obtain ⟨a, b⟩ := p
    simp only [List.all_cons, Bool.and_eq_true] at hl
    simp only [alookup] at h
    by_cases hk : a = k
    · subst hk
      rw [if_pos rfl] at h
      cases h
      exact hl.1
    · rw [if_neg hk] at h
      exact ih hl.2 h

theorem any_aset_of_lookup {β : Type} (q : String × β → Bool) (k : String) (v v' : β)
    (l : List (String × β)) (h : alookup k l = some v) (he : q (k, v') = q (k, v)) :
    (aset k v' l).any q = l.any q := by
  induction l with
  | nil => simp [alookup] at h
  | cons p t ih =>
    obtain ⟨a, b⟩ := p
    simp only [alookup] at h
    by_cases hk : a = k
    · subst hk
      rw [if_pos rfl] at h
      cases h
      simp [aset, he]
    · rw [if_neg hk] at h
      simp [aset, hk, ih h]

theorem any_aset_of_none {β : Type} (q : String × β → Bool) (k : String) (v' : β)
    (l : List (String × β)) (h : alookup k l = none) :
    (aset k v' l).any q = (l.any q || q (k, v')) := by
  induction l with
  | nil => simp [aset, alookup]
  | cons p t ih =>
    obtain ⟨a, b⟩ := p
    simp only [alookup] at h
    by_cases hk : a = k
    · simp [hk] at h
    · rw [if_neg hk] at h
      simp [aset, hk, ih h, Bool.or_assoc]

theorem any_mapVals {β : Type} (q : String × β → Bool) (g : String → β → β)
    (l : List (String × β)) :
    (mapVals g l).any q = l.any (fun p => q (p.1, g p.1 p.2)) := by
  induction l with
  | nil => simp [mapVals]
  | cons p t ih =>
    obtain ⟨a, b⟩ := p
    simp [mapVals, List.any_cons] at ih ⊢
    rw [ih]

theorem any_ext {β : Type} (f₁ f₂ : β → Bool) (l : List β) (h : ∀ x, f₁ x = f₂ x) :
    l.any f₁ = l.any f₂ := by
  have hf : f₁ = f₂ := funext h
  rw [hf]

theorem any_false {β : Type} (l : List β) : (l.any fun _ => false) = false := by
  induction l with
  | nil => rfl
  | cons x t ih => simp [List.any_cons, ih]

/-- C1 (amended): every action other than `unregisterField` preserves
the invariant that each form's `invalid` flag equals whether at least
one of its fields has a truthy error; in particular each form present
after such an action satisfies the invariant. (`unregisterField` can
delete the only field holding a truthy error while leaving `invalid`
stale, refuting the unrestricted claim.) -/
theorem invalid_matches_field_errors (s : RootState) (a : Action)
    (hinv : allFormsInvariant s = true)
    (hne : ∀ n f, a ≠ Action.unregisterField n f) :
    allFormsInvariant (formReducer s a) = true ∧
    ∀ n form, alookup n (formReducer s a) = some form → formInvariantB form = true := by
  have main : allFormsInvariant (formReducer s a) = true := by
    cases a with
    | initForm n =>
      simp only [formReducer]
      split
      · exact hinv
      · exact all_aset _ n _ s hinv rfl
    | destroyForm n =>
      exact all_aremove _ n s hinv
    | registerField n f =>
      simp only [formReducer]
      split
      · exact hinv
      next form h =>
        have hform : formInvariantB form = true := all_alookup _ n form s hinv h
        split
        next hf =>
          apply all_aset _ n _ s hinv
          simp only [formInvariantB] at hform ⊢
          rw [any_aset_of_none (fun p => errTruthy p.2.error) f _ form.fields hf]
          simpa [errTruthy, initialField] using hform
        next fs hf =>
          apply all_aset _ n _ s hinv
          simp only [formInvariantB] at hform ⊢
          rw [any_aset_of_lookup (fun p => errTruthy p.2.error) f fs
            { fs with count := fs.count + 1 } form.fields hf (by rfl)]
          exact hform
    | unregisterField n f => exact absurd rfl (hne n f)
    | setInitialValues n values =>
      simp only [formReducer]
      split
      · exact hinv
      next form h =>
        have hform : formInvariantB form = true := all_alookup _ n form s hinv h
        apply all_aset _ n _ s hinv
        simp only [formInvariantB] at hform ⊢
        rw [any_mapVals]
        rw [any_ext _ (fun p => errTruthy p.2.error) form.fields ?heq]
        · exact hform
        · intro p
          cases hv : alookup p.1 values <;> simp [hv]
    | updateFieldErrors n errors =>
      simp only [formReducer]
      split
      · exact hinv
      next form h =>
        apply all_aset _ n _ s hinv
        simp [formInvariantB]
    | focusField n f =>
      simp only [formReducer, updateField]
      split
      · exact hinv
      next form h =>
        split
        · exact hinv
        next fs hf =>
          have hform : formInvariantB form = true := all_alookup _ n form s hinv h
          apply all_aset _ n _ s hinv
          simp only [formInvariantB] at hform ⊢
          rw [any_aset_of_lookup (fun p => errTruthy p.2.error) f fs
            { fs with focus := true } form.fields hf (by rfl)]
          exact hform
    | blurField n f =>
      simp only [formReducer, updateField]
      split
      · exact hinv
      next form h =>
        split
        · exact hinv
        next fs hf =>
          have hform : formInvariantB form = true := all_alookup _ n form s hinv h
          apply all_aset _ n _ s hinv
          simp only [formInvariantB] at hform ⊢
          rw [any_aset_of_lookup (fun p => errTruthy p.2.error) f fs
            { fs with focus := false, touched := true } form.fields hf (by rfl)]
          exact hform
    | changeField n f v =>
      simp only [formReducer, updateField]
      split
      · exact hinv
      next form h =>
        split
        · exact hinv
        next fs hf =>
          have hform : formInvariantB form = true := all_alookup _ n form s hinv h
          apply all_aset _ n _ s hinv
          simp only [formInvariantB] at hform ⊢
          rw [any_aset_of_lookup (fun p => errTruthy p.2.error) f fs
            { fs with value := v } form.fields hf (by rfl)]
          exact hform
    | resetForm n =>
      simp only [formReducer]
      split
      · exact hinv
      next form h =>
        apply all_aset _ n _ s hinv
        simp only [formInvariantB]
        rw [any_mapVals]
        rw [any_ext _ (fun _ => false) form.fields ?heq2]
        · simp [any_false]
        · intro p
          simp [errTruthy]
    | unknownAction t => exact hinv
  refine ⟨main, ?_⟩
  intro n form h
  exact all_alookup _ n form _ main h

/-- C1 counterexample: starting from the empty state, init a form,
register a field, push an error for it (making the form invalid), then
unregister the field. The field map becomes empty while `invalid`
stays true, so after this action `invalid` does not equal the presence
of a truthy field error. -/
theorem invalid_matches_counterexample :
    alookup "test"
      (reduceAll []
        [Action.initForm "test", Action.registerField "test" "age",
         Action.updateFieldErrors "test" [("age", "required")],
         Action.unregisterField "test" "age"]) =
      some { name := "test", fields := [], invalid := true, initialValues := none } ∧
    formInvariantB
      { name := "test", fields := [], invalid := true, initialValues := none } = false := by
  exact ⟨by decide, by decide⟩

theorem invalid_matches_field_errors_witness :
    allFormsInvariant sampleState = true ∧
    (allFormsInvariant
        (formReducer sampleState
          (Action.updateFieldErrors "test" [("age", "required")])) = true ∧
      ∀ n form,
        alookup n (formReducer sampleState
          (Action.updateFieldErrors "test" [("age", "required")])) = some form →
        formInvariantB form = true) :=
  ⟨by decide,
   invalid_matches_field_errors sampleState
     (Action.updateFieldErrors "test" [("age", "required")])
     (by decide) (fun n f h => Action.noConfusion h)⟩

/-- C5: reducing initForm on a state with no entry for the form
inserts exactly the empty shell; when an entry already exists the
state is left unchanged; hence reducing initForm twice equals reducing
it once, for every state and form name. -/
theorem initForm_idempotent (s : RootState) (n : String) :
    (alookup n s = none →
      formReducer s (Action.initForm n) =
        aset n { name := n, fields := [], invalid := false, initialValues := none } s) ∧
    (∀ form, alookup n s = some form → formReducer s (Action.initForm n) = s) ∧
    formReducer (formReducer s (Action.initForm n)) (Action.initForm n) =
      formReducer s (Action.initForm n) := by
  refine ⟨?_, ?_, ?_⟩
  · intro h
    simp only [formReducer, h]
  · intro form h
    simp only [formReducer, h]
  · cases h : alookup n s with
    | some form => simp only [formReducer, h]
    | none =>
      simp only [formReducer, h]
      rw [alookup_aset]
      simp

theorem initForm_idempotent_witness :
    (formReducer [] (Action.initForm "test") =
      aset "test" { name := "test", fields := [], invalid := false, initialValues := none } []) ∧
    (formReducer (formReducer [] (Action.initForm "test")) (Action.initForm "test") =
      formReducer [] (Action.initForm "test")) ∧
    formReducer emptyTestState (Action.initForm "test") = emptyTestState :=
  ⟨(initForm_idempotent [] "test").1 rfl,
   (initForm_idempotent [] "test").2.2,
   (initForm_idempotent emptyTestState "test").2.1
     { name := "test", fields := [], invalid := false, initialValues := none } rfl⟩

/-- C8: for every state, an action whose type is not one of the
enumerated form action types reduces to the input state itself (the
default case of the reducer returns its argument unchanged). -/
theorem unknown_action_returns_input (s : RootState) (t : String) :
    formReducer s (Action.unknownAction t) = s := rfl

/-- C10: the field directive's onChange dispatches a changeField
action iff the new element value differs from the recorded
`fieldValue` (dispatching the state-value-transformed value), and
onStateValueUpdate records the element-value-transformed value as the
new `fieldValue` on every state value push. -/
theorem onChange_dispatches_iff_changed (d : FieldDirective) (newValue : Value) :
    (FieldDirective.onChange d newValue = none ↔ newValue = d.fieldValue) ∧
    (newValue ≠ d.fieldValue →
      FieldDirective.onChange d newValue =
        some (Action.changeField d.formName d.fieldName
          (match d.stateValueTransformer with
           | some t => t newValue
           | none => newValue))) ∧
    ∀ v, (FieldDirective.onStateValueUpdate d v).fieldValue =
      (match d.elementValueTransformer with
       | some t => t v
       | none => v) := by
  refine ⟨?_, ?_, ?_⟩
  · by_cases h : newValue = d.fieldValue
    · simp [FieldDirective.onChange, h]
    · simp [FieldDirective.onChange, h]
  · intro h
    simp [FieldDirective.onChange, h]
  · intro v
    rfl

theorem onChange_dispatches_iff_changed_witness :
    FieldDirective.onChange sampleDirective (Value.str "John") =
      some (Action.changeField "test" "name" (Value.str "John")) ∧
    FieldDirective.onChange sampleDirective Value.undef = none ∧
    (FieldDirective.onStateValueUpdate sampleDirective (Value.str "x")).fieldValue =
      Value.str "x" := by
  refine ⟨?_, ?_, ?_⟩
  · exact (onChange_dispatches_iff_changed sampleDirective (Value.str "John")).2.1 (by decide)
  · exact (onChange_dispatches_iff_changed sampleDirective Value.undef).1.mpr rfl
  · exact (onChange_dispatches_iff_changed sampleDirective Value.undef).2.2 (Value.str "x")

/-- C3: reducing updateFieldErrors on an existing form sets each
existing field's error to the errors-map entry for that field (absent
entry clears the error), creates no field entries for unregistered
keys of the errors map, and recomputes `invalid` as whether some
field's resulting error is truthy. -/
theorem updateFieldErrors_rewrites_errors (s : RootState) (n : String)
    (errors : FieldErrors) (form : FormState) (h : alookup n s = some form) :
    ∃ form', alookup n (formReducer s (Action.updateFieldErrors n errors)) = some form' ∧
      (∀ f, alookup f form'.fields =
        (alookup f form.fields).map (fun fs => { fs with error := alookup f errors })) ∧
      form'.invalid = form'.fields.any (fun p => errTruthy p.2.error) := by
  refine ⟨{ form with
      fields := mapVals (fun f fs => { fs with error := alookup f errors }) form.fields,
      invalid := (mapVals (fun f fs => { fs with error := alookup f errors })
        form.fields).any (fun p => errTruthy p.2.error) }, ?_, ?_, ?_⟩
  · simp only [formReducer, h]
    rw [alookup_aset]
    simp
  · intro f
    dsimp only
    exact alookup_mapVals _ f form.fields
  · rfl

theorem updateFieldErrors_rewrites_errors_witness :
    ∃ form', alookup "test"
        (formReducer errSampleState
          (Action.updateFieldErrors "test" [("age", "Age is required")])) = some form' ∧
      (∀ f, alookup f form'.fields =
        (alookup f errSampleForm.fields).map
          (fun fs => { fs with error := alookup f [("age", "Age is required")] })) ∧
      form'.invalid = form'.fields.any (fun p => errTruthy p.2.error) :=
  updateFieldErrors_rewrites_errors errSampleState "test"
    [("age", "Age is required")] errSampleForm rfl

/-- C4: reducing resetForm on an existing form restores each existing
field's value to its entry in `initialValues` (JS `undefined` when the
key or the whole map is absent), clears focus, touched and error,
preserves each field's count, sets `invalid` to false and preserves
`initialValues`; since this holds for every input state, it holds in
particular after any preceding sequence of
changeField/focusField/blurField/updateFieldErrors actions. -/
theorem resetForm_restores_initial_values (s : RootState) (n : String)
    (form : FormState) (h : alookup n s = some form) :
    ∃ form', alookup n (formReducer s (Action.resetForm n)) = some form' ∧
      (∀ f, alookup f form'.fields = (alookup f form.fields).map (fun fs =>
        { value := (alookup f (form.initialValues.getD [])).getD Value.undef,
          focus := false, touched := false, error := none, count := fs.count })) ∧
      form'.invalid = false ∧
      form'.initialValues = form.initialValues := by
  refine ⟨{ form with
      fields := mapVals (fun f fs =>
        { fs with
          value := (alookup f (form.initialValues.getD [])).getD Value.undef,
          focus := false, touched := false, error := none }) form.fields,
      invalid := false }, ?_, ?_, ?_, ?_⟩
  · simp only [formReducer, h]
    rw [alookup_aset]
    simp
  · intro f
    dsimp only
    exact alookup_mapVals _ f form.fields
  · rfl
  · rfl

theorem resetForm_restores_initial_values_witness :
    ∃ form', alookup "test" (formReducer resetSampleState (Action.resetForm "test")) =
        some form' ∧
      (∀ f, alookup f form'.fields = (alookup f resetSampleForm.fields).map (fun fs =>
        { value := (alookup f (resetSampleForm.initialValues.getD [])).getD Value.undef,
          focus := false, touched := false, error := none, count := fs.count })) ∧
      form'.invalid = false ∧
      form'.initialValues = resetSampleForm.initialValues :=
  resetForm_restores_initial_values resetSampleState "test" resetSampleForm rfl

/-- C6: reducing setInitialValues on an existing form replaces the
form's `initialValues` with the given values, and each existing field
whose name is a key of the values map gets that value while other
fields are unchanged; keys of the values map without a registered
field create no field entries. -/
theorem setInitialValues_seeds_values (s : RootState) (n : String)
    (values : Values) (form : FormState) (h : alookup n s = some form) :
    ∃ form', alookup n (formReducer s (Action.setInitialValues n values)) = some form' ∧
      form'.initialValues = some values ∧
      (∀ f, alookup f form'.fields = (alookup f form.fields).map (fun fs =>
        match alookup f values with
        | some v => { fs with value := v }
        | none => fs)) := by
  refine ⟨{ form with
      initialValues := some values,
      fields := mapVals (fun f fs =>
        match alookup f values with
        | some v => { fs with value := v }
        | none => fs) form.fields }, ?_, ?_, ?_⟩
  · simp only [formReducer, h]
    rw [alookup_aset]
    simp
  · rfl
  · intro f
    dsimp only
    exact alookup_mapVals _ f form.fields

theorem setInitialValues_seeds_values_witness :
    ∃ form', alookup "test"
        (formReducer errSampleState
          (Action.setInitialValues "test" [("name", Value.str "Jen"), ("ghost", Value.str "x")])) =
        some form' ∧
      form'.initialValues = some [("name", Value.str "Jen"), ("ghost", Value.str "x")] ∧
      (∀ f, alookup f form'.fields = (alookup f errSampleForm.fields).map (fun fs =>
        match alookup f [("name", Value.str "Jen"), ("ghost", Value.str "x")] with
        | some v => { fs with value := v }
        | none => fs)) :=
  setInitialValues_seeds_values errSampleState "test"
    [("name", Value.str "Jen"), ("ghost", Value.str "x")] errSampleForm rfl

/-- C7: the reducer is total (it is a function yielding a state for
every state and action); field-level and mutating actions referencing
a nonexistent form leave the state unchanged; focus, blur, change and
unregister actions referencing a nonexistent field leave the state
unchanged; destroyForm on a nonexistent form (including a second
destroy) leaves the state unchanged. -/
theorem reducer_total_and_noop (s : RootState) :
    (∀ a, ∃ s', formReducer s a = s') ∧
    (∀ n, alookup n s = none →
      (∀ f, formReducer s (Action.registerField n f) = s) ∧
      (∀ f, formReducer s (Action.unregisterField n f) = s) ∧
      (∀ vs, formReducer s (Action.setInitialValues n vs) = s) ∧
      (∀ es, formReducer s (Action.updateFieldErrors n es) = s) ∧
      (∀ f, formReducer s (Action.focusField n f) = s) ∧
      (∀ f, formReducer s (Action.blurField n f) = s) ∧
      (∀ f v, formReducer s (Action.changeField n f v) = s) ∧
      formReducer s (Action.resetForm n) = s) ∧
    (∀ n form f, alookup n s = some form → alookup f form.fields = none →
      formReducer s (Action.focusField n f) = s ∧
      formReducer s (Action.blurField n f) = s ∧
      (∀ v, formReducer s (Action.changeField n f v) = s) ∧
      formReducer s (Action.unregisterField n f) = s) ∧
    (∀ n, alookup n s = none → formReducer s (Action.destroyForm n) = s) := by
  refine ⟨fun a => ⟨formReducer s a, rfl⟩, ?_, ?_, ?_⟩
  · intro n h
    refine ⟨?_, ?_, ?_, ?_, ?_, ?_, ?_, ?_⟩ <;>
      intros <;> simp only [formReducer, updateField, h]
  · intro n form f h hf
    refine ⟨?_, ?_, ?_, ?_⟩ <;>
      intros <;> simp only [formReducer, updateField, h, hf]
  · intro n h
    simp only [formReducer]
    exact aremove_of_lookup_none n s h

theorem reducer_total_and_noop_witness :
    formReducer sampleState (Action.registerField "missing" "x") = sampleState ∧
    formReducer sampleState (Action.resetForm "missing") = sampleState ∧
    formReducer sampleState (Action.focusField "test" "ghost") = sampleState ∧
    formReducer sampleState (Action.unregisterField "test" "ghost") = sampleState ∧
    formReducer sampleState (Action.destroyForm "missing") = sampleState :=
  ⟨((reducer_total_and_noop sampleState).2.1 "missing" rfl).1 "x",
   ((reducer_total_and_noop sampleState).2.1 "missing" rfl).2.2.2.2.2.2.2,
   ((reducer_total_and_noop sampleState).2.2.1 "test" sampleForm "ghost" rfl rfl).1,
   ((reducer_total_and_noop sampleState).2.2.1 "test" sampleForm "ghost" rfl rfl).2.2.2,
   (reducer_total_and_noop sampleState).2.2.2 "missing" rfl⟩

/-- C9: reducing any action carrying a form name leaves the entry of
every other form name in the root state unchanged. -/
theorem other_forms_reference_stable (s : RootState) (a : Action) (N M : String)
    (hN : actionFormName a = some N) (hM : M ≠ N) :
    alookup M (formReducer s a) = alookup M s := by
  cases a <;>
    simp only [actionFormName] at hN <;>
    first
      | exact Option.noConfusion hN
      | (injection hN with hN
         subst hN
         simp only [formReducer, updateField]
         (repeat' split) <;>
           first
             | rfl
             | rw [alookup_aremove, if_neg hM]
             | rw [alookup_aset, if_neg hM])

theorem other_forms_reference_stable_witness :
    alookup "other" (formReducer sampleState (Action.destroyForm "test")) =
      alookup "other" sampleState ∧
    alookup "other" (formReducer sampleState (Action.registerField "test" "age")) =
      alookup "other" sampleState :=
  ⟨other_forms_reference_stable sampleState (Action.destroyForm "test") "test" "other"
     rfl (by decide),
   other_forms_reference_stable sampleState (Action.registerField "test" "age") "test" "other"
     rfl (by decide)⟩

theorem regCount_cons_true (t : List Bool) : regCount (true :: t) = regCount t + 1 := by
  simp [regCount, List.filter_cons]

theorem regCount_cons_false (t : List Bool) : regCount (false :: t) = regCount t := by
  simp [regCount, List.filter_cons]

theorem unregCount_cons_true (t : List Bool) : unregCount (true :: t) = unregCount t := by
  simp [unregCount, List.filter_cons]

theorem unregCount_cons_false (t : List Bool) : unregCount (false :: t) = unregCount t + 1 := by
  simp [unregCount, List.filter_cons]

theorem applyRegOps_char (ops : List Bool) :
    ∀ (s : RootState) (n f : String) (form : FormState) (c : Nat),
    alookup n s = some form →
    alookup f form.fields =
      (if 0 < c then some { initialField with count := c } else none) →
    (∀ k, unregCount (ops.take k) ≤ c + regCount (ops.take k)) →
    ∃ form', alookup n (applyRegOps s n f ops) = some form' ∧
      alookup f form'.fields =
        (if 0 < c + regCount ops - unregCount ops
         then some { initialField with count := c + regCount ops - unregCount ops }
         else none) := by
  induction ops with
  | nil =>
    intro s n f form c h hf hbal
    refine ⟨form, h, ?_⟩
    simpa [applyRegOps, regCount, unregCount] using hf
  | cons b t ih =>
    intro s n f form c h hf hbal
    have hstep : applyRegOps s n f (b :: t) =
        applyRegOps (formReducer s
          (if b then Action.registerField n f else Action.unregisterField n f)) n f t := by
      simp [applyRegOps]
    cases b with
    | true =>
      have hbal' : ∀ k, unregCount (t.take k) ≤ (c + 1) + regCount (t.take k) := by
        intro k
        have hb := hbal (k + 1)
        rw [List.take_succ_cons, regCount_cons_true, unregCount_cons_true] at hb
        omega
      by_cases hc : 0 < c
      · rw [if_pos hc] at hf
        have hred : formReducer s (Action.registerField n f) =
            aset n { form with
              fields := aset f { initialField with count := c + 1 } form.fields } s := by
          simp only [formReducer, h, hf]
        have h1 : alookup n (formReducer s (Action.registerField n f)) =
            some { form with
              fields := aset f { initialField with count := c + 1 } form.fields } := by
          rw [hred, alookup_aset, if_pos rfl]
        have h2 : alookup f ({ form with
            fields := aset f { initialField with count := c + 1 } form.fields} : FormState).fields =
            (if 0 < c + 1 then some { initialField with count := c + 1 } else none) := by
          rw [if_pos (Nat.succ_pos c)]
          dsimp only
          rw [alookup_aset, if_pos rfl]
        obtain ⟨form', hh1, hh2⟩ :=
          ih (formReducer s (Action.registerField n f)) n f _ (c + 1) h1 h2 hbal'
        refine ⟨form', ?_, ?_⟩
        · rw [hstep]
          simpa using hh1
        · rw [hh2]
          have harith : c + 1 + regCount t - unregCount t =
              c + regCount (true :: t) - unregCount (true :: t) := by
            rw [regCount_cons_true, unregCount_cons_true]
            omega
          rw [harith]
      · have hc0 : c = 0 := by omega
        subst hc0
        rw [if_neg (by omega)] at hf
        have hred : formReducer s (Action.registerField n f) =
            aset n { form with
              fields := aset f { initialField with count := 1 } form.fields } s := by
          simp only [formReducer, h, hf]
        have h1 : alookup n (formReducer s (Action.registerField n f)) =
            some { form with
              fields := aset f { initialField with count := 1 } form.fields } := by
          rw [hred, alookup_aset, if_pos rfl]
        have h2 : alookup f ({ form with
            fields := aset f { initialField with count := 1 } form.fields} : FormState).fields =
            (if 0 < 1 then some { initialField with count := 1 } else none) := by
          rw [if_pos Nat.one_pos]
          dsimp only
          rw [alookup_aset, if_pos rfl]
        obtain ⟨form', hh1, hh2⟩ :=
          ih (formReducer s (Action.registerField n f)) n f _ 1 h1 h2 (by simpa using hbal')
        refine ⟨form', ?_, ?_⟩
        · rw [hstep]
          simpa using hh1
        · rw [hh2]
          have harith : 1 + regCount t - unregCount t =
              0 + regCount (true :: t) - unregCount (true :: t) := by
            rw [regCount_cons_true, unregCount_cons_true]
            omega
          rw [harith]
    | false =>
      have hc : 1 ≤ c := by
        have hb := hbal 1
        rw [List.take_succ_cons, regCount_cons_false, unregCount_cons_false] at hb
        simp [List.take, regCount, unregCount] at hb
        omega
      rw [if_pos (by omega)] at hf
      have hbal' : ∀ k, unregCount (t.take k) ≤ (c - 1) + regCount (t.take k) := by
        intro k
        have hb := hbal (k + 1)
        rw [List.take_succ_cons, regCount_cons_false, unregCount_cons_false] at hb
        omega
      by_cases hc1 : c = 1
      · subst hc1
        have hred : formReducer s (Action.unregisterField n f) =
            aset n { form with fields := aremove f form.fields } s := by
          simp only [formReducer, h, hf]
          simp
        have h1 : alookup n (formReducer s (Action.unregisterField n f)) =
            some { form with fields := aremove f form.fields } := by
          rw [hred, alookup_aset, if_pos rfl]
        have h2 : alookup f ({ form with
            fields := aremove f form.fields } : FormState).fields =
            (if 0 < 0 then some { initialField with count := 0 } else none) := by
          rw [if_neg (by omega)]
          dsimp only
          rw [alookup_aremove, if_pos rfl]
        obtain ⟨form', hh1, hh2⟩ :=
          ih (formReducer s (Action.unregisterField n f)) n f _ 0 h1 h2 (by simpa using hbal')
        refine ⟨form', ?_, ?_⟩
        · rw [hstep]
          simpa using hh1
        · rw [hh2]
          have harith : 0 + regCount t - unregCount t =
              1 + regCount (false :: t) - unregCount (false :: t) := by
            rw [regCount_cons_false, unregCount_cons_false]
            omega
          rw [harith]
      · have hc2 : 2 ≤ c := by omega
        have hred : formReducer s (Action.unregisterField n f) =
            aset n { form with
              fields := aset f { initialField with count := c - 1 } form.fields } s := by
          simp only [formReducer, h, hf]
          rw [if_neg (by omega)]
        have h1 : alookup n (formReducer s (Action.unregisterField n f)) =
            some { form with
              fields := aset f { initialField with count := c - 1 } form.fields } := by
          rw [hred, alookup_aset, if_pos rfl]
        have h2 : alookup f ({ form with
            fields := aset f { initialField with count := c - 1 } form.fields} : FormState).fields =
            (if 0 < c - 1 then some { initialField with count := c - 1 } else none) := by
          rw [if_pos (by omega)]
          dsimp only
          rw [alookup_aset, if_pos rfl]
        obtain ⟨form', hh1, hh2⟩ :=
          ih (formReducer s (Action.unregisterField n f)) n f _ (c - 1) h1 h2 hbal'
        refine ⟨form', ?_, ?_⟩
        · rw [hstep]
          simpa using hh1
        · rw [hh2]
          have harith : c - 1 + regCount t - unregCount t =
              c + regCount (false :: t) - unregCount (false :: t) := by
            rw [regCount_cons_false, unregCount_cons_false]
            omega
          rw [harith]

/-- C2 (amended): for an initialized form and a field not yet
registered, after any sequence of register/unregister actions on that
field in which unregister actions never outnumber register actions in
any prior portion of the sequence, the field entry exists iff the
number of register actions exceeds the number of unregister actions,
its count is exactly that difference while it exists, and its other
attributes stay at their initial values. (Without the no-underflow
condition the claim fails: an unregister on the absent field is a
no-op but still counts, see the counterexample.) -/
theorem registration_count_conservation (s : RootState) (n f : String)
    (form : FormState) (ops : List Bool)
    (h : alookup n s = some form)
    (hf : alookup f form.fields = none)
    (hbal : ∀ k, unregCount (ops.take k) ≤ regCount (ops.take k)) :
    ∃ form', alookup n (applyRegOps s n f ops) = some form' ∧
      alookup f form'.fields =
        (if unregCount ops < regCount ops
         then some { value := Value.undef, focus := false, touched := false, error := none,
                     count := regCount ops - unregCount ops }
         else none) := by
  have h0 : alookup f form.fields =
      (if 0 < 0 then some { initialField with count := 0 } else none) := by
    simpa using hf
  obtain ⟨form', h1, h2⟩ :=
    applyRegOps_char ops s n f form 0 h h0 (by simpa using hbal)
  refine ⟨form', h1, ?_⟩
  rw [h2]
  by_cases hlt : unregCount ops < regCount ops
  · rw [if_pos (by omega), if_pos hlt]
    have harith : 0 + regCount ops - unregCount ops = regCount ops - unregCount ops := by
      omega
    rw [harith]
    rfl
  · rw [if_neg (by omega), if_neg hlt]

/-- C2 counterexample: apply unregister then register to an untouched
field. The two counts are equal (one each), so the claim says the
field is absent, but the unregister was a no-op on the absent field
and the register created the entry with count 1. -/
theorem registration_count_counterexample :
    ¬ (unregCount [false, true] < regCount [false, true]) ∧
    alookup "test" (applyRegOps emptyTestState "test" "f" [false, true]) =
      some { name := "test",
             fields := [("f",
               { value := Value.undef, focus := false, touched := false,
                 error := none, count := 1 })],
             invalid := false, initialValues := none } := by
  exact ⟨by decide, by decide⟩

theorem registration_count_conservation_witness :
    ∃ form', alookup "test" (applyRegOps emptyTestState "test" "name" [true, true, false]) =
        some form' ∧
      alookup "name" form'.fields =
        (if unregCount [true, true, false] < regCount [true, true, false]
         then some { value := Value.undef, focus := false, touched := false, error := none,
                     count := regCount [true, true, false] - unregCount [true, true, false] }
         else none) :=
  registration_count_conservation emptyTestState "test" "name" _ [true, true, false]
    rfl rfl (by
      intro k
      rcases k with _ | _ | _ | k <;>
        simp [List.take, regCount, unregCount, List.filter_cons])

end NgrxForm
